import Mathlib

/-!
Verification of the Charon code-generation macros (`charon/macros/src/lib.rs`)
and the drop-removal pass (`charon/src/remove_drop_never.rs`).

The Rust source is shallowly embedded: each Rust function becomes a Lean
definition of the same name, fallible code (Rust `panic!` / `unimplemented!` /
failed `assert!` / `unwrap` on `None`) becomes `Except String` (the error
message carries the panic diagnostic) or `Option` for the drop-removal pass.
Machine integers (`usize`, `u32`) are modelled as `Nat`; the only place where
the width matters (the serialization hook of the generated index module) keeps
the `2^32` bound explicit.
-/

set_option maxHeartbeats 1000000

namespace CharonMacros

/-! ### Basic `syn` data, leaves first

`syn::Lifetime` keeps only the identifier (without the leading apostrophe),
as in the Rust AST. -/

structure Lifetime where
  ident : String
deriving DecidableEq, Repr

/-- `syn::Lit`: literals. Payloads are the pieces the printer reads:
`str` keeps `value()`, `byte` the numeric value, `char` the character,
`int`/`float` their `base10_digits()` strings, `bool` the boolean.
`byteStr` and `verbatimLit` carry no payload: the printer never reads them
(it hits `unimplemented!()`). -/
inductive Lit where
  | str (value : String)
  | byteStr
  | byte (value : Nat)
  | char (value : Char)
  | int (base10Digits : String)
  | float (base10Digits : String)
  | bool (value : Bool)
  | verbatimLit
deriving DecidableEq, Repr

/-- `syn::Expr`, restricted as in the source: only the literal alternative is
ever printed; every other expression form is collapsed into `otherExpr`
(the source treats them uniformly with `_ => unimplemented!()`). -/
inductive Expr where
  | lit (l : Lit)
  | otherExpr (k : Nat)
deriving DecidableEq, Repr

inductive TraitBoundModifier where
  | none
  | maybe
deriving DecidableEq, Repr

/-- `lifetime_to_string` (lib.rs:192-194): renders `'ident`. -/
def lifetime_to_string (lf : Lifetime) : String :=
  "\x27" ++ lf.ident

/-- `lit_to_string` (lib.rs:308-319). `ByteStr` and `Verbatim` are
`unimplemented!()`. -/
def lit_to_string (l : Lit) : Except String String :=
  match l with
  | .str l => .ok l
  | .byteStr => .error "not implemented"
  | .byte l => .ok (toString l)
  | .char l => .ok (String.singleton l)
  | .int l => .ok l
  | .float l => .ok l
  | .bool l => .ok (toString l)
  | .verbatimLit => .error "not implemented"

/-- `expr_to_string` (lib.rs:323-328): only literals are supported. -/
def expr_to_string (e : Expr) : Except String String :=
  match e with
  | .lit l => lit_to_string l
  | .otherExpr _ => .error "not implemented"

/-! ### `to_snake_case` (lib.rs:199-224)

The Rust loop pushes onto a `String` accumulator while tracking whether the
last treated character was lowercase (i.e. not uppercase). `c.is_uppercase()`
and `c.to_lowercase().next().unwrap()` are modelled by `Char.isUpper` and
`Char.toLower`; identifiers handled by these macros are ASCII, where the two
agree with Rust. -/

def snake_case_loop : List Char → String → Bool → String
  | [], acc, _ => acc
  | c :: cs, acc, last_is_lowercase =>
    if c.isUpper then
      let acc := if last_is_lowercase then acc.push '_' else acc
      snake_case_loop cs (acc.push c.toLower) false
    else
      snake_case_loop cs (acc.push c) true

def to_snake_case (s : String) : String :=
  snake_case_loop s.data "" false

/-- Follows the spec's words (§4.2 NameMangler): scan characters left to
right; on an uppercase character emit `_` first exactly when the previous
character set the last-was-lowercase flag, then emit its lowercase form and
clear the flag; emit every non-uppercase character unchanged and set the
flag. Used to compare the accumulator loop of the source against the
claim's description. -/
def spec_snake_scan : List Char → Bool → List Char
  | [], _ => []
  | c :: cs, last_is_lowercase =>
    if c.isUpper then
      (if last_is_lowercase then ['_'] else []) ++ (c.toLower :: spec_snake_scan cs false)
    else
      c :: spec_snake_scan cs true

/-! ### The type AST (`syn::Type` and friends)

`syn`'s `Type`, `PathSegment`, `PathArguments`, `GenericArgument` and
`TypeParamBound` are mutually nested; only the pieces the printers read are
kept. `TypePath` is flattened into the `path` constructor (presence of a
`qself` is a flag, since the printer only asserts its absence); a `Path`
is its segment list (the printer ignores `leading_colon`); `TraitBound`
is flattened into the `traitB` constructor (modifier, presence of
higher-ranked `lifetimes`, path). Unsupported shapes that the printer never
inspects are payload-free constructors. -/

mutual

inductive TypeExpr where
  | array (elem : TypeExpr) (len : Expr)
  | bareFn
  | group
  | implTrait
  | infer
  | macroTy
  | never
  | paren
  | path (qselfPresent : Bool) (segments : List PathSegment)
  | ptr
  | reference (lifetime : Option Lifetime) (mutability : Bool) (elem : TypeExpr)
  | slice (elem : TypeExpr)
  | traitObject
  | tuple (elems : List TypeExpr)
  | verbatim

inductive PathSegment where
  | mk (ident : String) (arguments : PathArguments)

inductive PathArguments where
  | none
  | angleBracketed (args : List GenericArgument)
  | parenthesized

inductive GenericArgument where
  | lifetimeArg (lf : Lifetime)
  | typeArg (ty : TypeExpr)
  | bindingArg (ident : String) (ty : TypeExpr)
  | constraintArg (ident : String) (bounds : List TypeParamBound)
  | constArg (e : Expr)

inductive TypeParamBound where
  | traitB (modifier : TraitBoundModifier) (hasLifetimes : Bool) (path : List PathSegment)
  | lifetimeB (lf : Lifetime)

end

/-! ### The type printers (lib.rs:228-419)

The mutual recursion mirrors the source call graph. The source's separate
helpers `type_path_to_string`, `path_to_string`,
`angle_bracketed_generic_arguments_to_string`, `binding_to_string`,
`constraint_to_string` and `trait_bound_to_string` are inlined at their call
sites inside the recursive nest (their bodies are one-liners over the list
helpers); named wrappers with the source signatures are defined right after
the `mutual` block. `..._strings` functions are the `iter().map(...).collect()`
list traversals. -/

mutual

/-- `type_to_string` (lib.rs:228-293). Unsupported shapes `panic!` with a
message naming the shape's tag. -/
def type_to_string : TypeExpr → Except String String
  | .array elem len => do
    let e ← type_to_string elem
    let l ← expr_to_string len
    pure ("[" ++ e ++ "; " ++ l ++ "]")
  | .bareFn => .error "type_to_string: unexpected type: BareFn"
  | .group => .error "type_to_string: unexpected type: Group"
  | .implTrait => .error "type_to_string: unexpected type: ImplTrait"
  | .infer => .error "type_to_string: unexpected type: Infer"
  | .macroTy => .error "type_to_string: unexpected type: Macro"
  | .never => .error "type_to_string: unexpected type: Never"
  | .paren => .error "type_to_string: unexpected type: Paren"
  | .path qselfPresent segments =>
    -- `type_path_to_string` (lib.rs:378-383): assert there is no qself,
    -- then `path_to_string` (lib.rs:369-376): join the segments with `::`.
    if qselfPresent then .error "assertion failed: tp.qself.is_none()"
    else do
      let segs ← path_segments_strings segments
      pure (String.intercalate "::" segs)
  | .ptr => .error "type_to_string: unexpected type: Ptr"
  | .reference lifetime mutability elem => do
    let lfs := match lifetime with
      | Option.none => ""
      | Option.some lf => lifetime_to_string lf
    let muts := if mutability then "&" ++ lfs ++ " mut" else "&" ++ lfs
    let e ← type_to_string elem
    pure (muts ++ " " ++ e)
  | .slice elem => do
    let e ← type_to_string elem
    pure ("[" ++ e ++ "]")
  | .traitObject => .error "type_to_string: unexpected type: TraitObject"
  | .tuple elems => do
    let tys ← type_list_strings elems
    pure ("(" ++ String.intercalate ", " tys ++ ")")
  | .verbatim => .error "type_to_string: unexpected type: Verbatim"

def type_list_strings : List TypeExpr → Except String (List String)
  | [] => .ok []
  | t :: ts => do
    let s ← type_to_string t
    let ss ← type_list_strings ts
    pure (s :: ss)

/-- `path_segment_to_string` (lib.rs:351-367), with
`angle_bracketed_generic_arguments_to_string` (lib.rs:330-339) inlined:
render the arguments, then emit `<args>` only if the argument list was
non-empty. `Parenthesized` arguments are `unimplemented!()`. -/
def path_segment_to_string : PathSegment → Except String String
  | .mk ident arguments =>
    match arguments with
    | .none => .ok ident
    | .angleBracketed args => do
      let ss ← generic_args_strings args
      let argsStr := if ss.isEmpty then "" else "<" ++ String.intercalate ", " ss ++ ">"
      pure (ident ++ argsStr)
    | .parenthesized => .error "not implemented"

def path_segments_strings : List PathSegment → Except String (List String)
  | [] => .ok []
  | p :: ps => do
    let s ← path_segment_to_string p
    let ss ← path_segments_strings ps
    pure (s :: ss)

/-- `generic_argument_to_string` (lib.rs:341-349), with `binding_to_string`
(lib.rs:295-297) and `constraint_to_string` (lib.rs:299-306) inlined. -/
def generic_argument_to_string : GenericArgument → Except String String
  | .lifetimeArg lf => .ok (lifetime_to_string lf)
  | .typeArg ty => type_to_string ty
  | .bindingArg ident ty => do
    let t ← type_to_string ty
    pure (ident ++ " = " ++ t)
  | .constraintArg ident bounds => do
    let bs ← type_param_bounds_strings bounds
    pure (ident ++ " : " ++ String.intercalate " + " bs)
  | .constArg e => expr_to_string e

def generic_args_strings : List GenericArgument → Except String (List String)
  | [] => .ok []
  | a :: as_ => do
    let s ← generic_argument_to_string a
    let ss ← generic_args_strings as_
    pure (s :: ss)

/-- One step of `type_param_bounds_to_string` (lib.rs:399-414), with
`trait_bound_to_string` (lib.rs:385-397) inlined: a trait bound with a
`Maybe` modifier is `unimplemented!()`, explicit higher-ranked lifetimes
fail the `assert!`, otherwise the bound renders as its path. -/
def type_param_bound_to_string : TypeParamBound → Except String String
  | .traitB modifier hasLifetimes path =>
    match modifier with
    | .maybe => .error "not implemented"
    | .none =>
      if hasLifetimes then .error "assertion failed: tb.lifetimes.is_none()"
      else do
        let segs ← path_segments_strings path
        pure (String.intercalate "::" segs)
  | .lifetimeB lf => .ok (lifetime_to_string lf)

def type_param_bounds_strings : List TypeParamBound → Except String (List String)
  | [] => .ok []
  | b :: bs => do
    let s ← type_param_bound_to_string b
    let ss ← type_param_bounds_strings bs
    pure (s :: ss)

end

/-- `path_to_string` (lib.rs:369-376). -/
def path_to_string (segments : List PathSegment) : Except String String := do
  let segs ← path_segments_strings segments
  pure (String.intercalate "::" segs)

/-- `angle_bracketed_generic_arguments_to_string` (lib.rs:330-339). -/
def angle_bracketed_generic_arguments_to_string (args : List GenericArgument) :
    Except String String := do
  let ss ← generic_args_strings args
  if ss.isEmpty then pure "" else pure ("<" ++ String.intercalate ", " ss ++ ">")

/-- `type_param_bounds_to_string` (lib.rs:399-414): collect and join with ` + `. -/
def type_param_bounds_to_string (bounds : List TypeParamBound) : Except String String := do
  let bs ← type_param_bounds_strings bounds
  pure (String.intercalate " + " bs)

/-- `lifetime_bounds_to_string` (lib.rs:416-419). -/
def lifetime_bounds_to_string (bounds : List Lifetime) : String :=
  String.intercalate " + " (bounds.map lifetime_to_string)

/-! ### Generic parameters (lib.rs:422-490) -/

/-- `syn::GenericParam`. A const parameter is `unimplemented!()` and its
payload is never read. -/
inductive GenericParam where
  | typeParam (ident : String) (bounds : List TypeParamBound)
  | lifetimeParam (lf : Lifetime) (bounds : List Lifetime)
  | constParam

/-- `generic_param_with_opt_constraints_to_string` (lib.rs:422-460). -/
def generic_param_with_opt_constraints_to_string
    (param : GenericParam) (with_constraints : Bool) : Except String String :=
  match param with
  | .typeParam ident bounds =>
    if bounds.isEmpty || !with_constraints then .ok ident
    else do
      let bs ← type_param_bounds_to_string bounds
      pure (ident ++ " : " ++ bs)
  | .lifetimeParam lf bounds =>
    let ident := lifetime_to_string lf
    if bounds.isEmpty || !with_constraints then .ok ident
    else .ok (ident ++ " : " ++ lifetime_bounds_to_string bounds)
  | .constParam => .error "not implemented"

/-- `generic_params_with_opt_constraints_to_string` (lib.rs:465-478). -/
def generic_params_with_opt_constraints_to_string
    (params : List GenericParam) (with_constraints : Bool) : Except String String := do
  let gens ← params.mapM
    (fun g => generic_param_with_opt_constraints_to_string g with_constraints)
  if gens.isEmpty then pure ""
  else pure ("<" ++ String.intercalate ", " gens ++ ">")

/-- `generic_params_to_string` (lib.rs:481-483). -/
def generic_params_to_string (params : List GenericParam) : Except String String :=
  generic_params_with_opt_constraints_to_string params true

/-- `generic_params_without_constraints_to_string` (lib.rs:486-490). -/
def generic_params_without_constraints_to_string (params : List GenericParam) :
    Except String String :=
  generic_params_with_opt_constraints_to_string params false

/-! ### Where clauses (lib.rs:492-536) -/

/-- `syn::WherePredicate`. The `Type` alternative keeps the presence of
higher-ranked `lifetimes` as a flag (the source only asserts their absence). -/
inductive WherePredicate where
  | typeP (hasLifetimes : Bool) (bounded_ty : TypeExpr) (bounds : List TypeParamBound)
  | lifetimeP (lf : Lifetime) (bounds : List Lifetime)
  | eqP (lhs_ty : TypeExpr) (rhs_ty : TypeExpr)

structure WhereClause where
  predicates : List WherePredicate

/-- `where_predicate_to_string` (lib.rs:492-523). -/
def where_predicate_to_string : WherePredicate → Except String String
  | .typeP hasLifetimes bounded_ty bounds =>
    if hasLifetimes then .error "assertion failed: pred_type.lifetimes.is_none()"
    else do
      let ty ← type_to_string bounded_ty
      if bounds.isEmpty then pure ty
      else do
        let bs ← type_param_bounds_to_string bounds
        pure (ty ++ " : " ++ bs)
  | .lifetimeP lf bounds =>
    .ok (lifetime_to_string lf ++ " : " ++ lifetime_bounds_to_string bounds)
  | .eqP lhs rhs => do
    let l ← type_to_string lhs
    let r ← type_to_string rhs
    pure (l ++ " = " ++ r)

/-- `where_clause_to_string` (lib.rs:525-529). -/
def where_clause_to_string (wc : WhereClause) : Except String String := do
  let preds ← wc.predicates.mapM where_predicate_to_string
  let preds := preds.map (fun p => "    " ++ p ++ ",\n")
  pure ("\nwhere\n" ++ String.join preds)

/-- `opt_where_clause_to_string` (lib.rs:531-536). -/
def opt_where_clause_to_string (wc : Option WhereClause) : Except String String :=
  match wc with
  | Option.none => .ok ""
  | Option.some wc => where_clause_to_string wc

/-! ### The enum data model (`syn::DeriveInput`, restricted to what the
derives read) -/

/-- `syn::Fields`. Named fields keep `(ident, ty)` — the source unwraps the
ident of a named field (lib.rs:589). -/
inductive Fields where
  | named (fields : List (String × TypeExpr))
  | unnamed (fields : List TypeExpr)
  | unit

def Fields.count : Fields → Nat
  | .named fields => fields.length
  | .unnamed fields => fields.length
  | .unit => 0

structure Variant where
  ident : String
  fields : Fields

structure DataEnum where
  variants : List Variant

inductive Data where
  | enum (d : DataEnum)
  | struct
  | union

structure Generics where
  params : List GenericParam
  where_clause : Option WhereClause

structure DeriveInput where
  ident : String
  generics : Generics
  data : Data

/-- `MatchPattern` (lib.rs:538-553). `variant_id` is the variant's `Ident`. -/
structure MatchPattern where
  variant_id : String
  match_pattern : String
  num_args : Nat
  named_args : List String
  arg_types : List String
deriving DecidableEq, Repr

/-! ### The match-pattern builder (lib.rs:555-648) -/

/-- `generate_varname` (lib.rs:569-578): the `&mut var_index` counter is
threaded explicitly. `checked_add(1).unwrap()` cannot overflow on `Nat`. -/
def generate_varname (var_index : Nat) (patvar_name : Option String) : String × Nat :=
  match patvar_name with
  | Option.none => ("_", var_index)
  | Option.some v => (v ++ toString var_index, var_index + 1)

/-- The named-fields `map` of lib.rs:584-593: each field yields the pair
`("field:var", var)`, threading the variable counter. -/
def named_fields_vars : List (String × TypeExpr) → Nat → Option String → List (String × String)
  | [], _, _ => []
  | f :: rest, var_index, patvar_name =>
    let v := generate_varname var_index patvar_name
    (f.1 ++ ":" ++ v.1, v.1) :: named_fields_vars rest v.2 patvar_name

/-- The unnamed-fields `map` of lib.rs:608-615: each field yields `(var, var)`. -/
def unnamed_fields_vars : List TypeExpr → Nat → Option String → List (String × String)
  | [], _, _ => []
  | _ :: rest, var_index, patvar_name =>
    let v := generate_varname var_index patvar_name
    (v.1, v.1) :: unnamed_fields_vars rest v.2 patvar_name

/-- The per-variant body of the loop in `generate_variant_match_patterns`
(lib.rs:564-645). -/
def variant_match_pattern (enum_name : String) (patvar_name : Option String)
    (variant : Variant) : Except String MatchPattern := do
  let variant_name := variant.ident
  let (pattern, num_vars, named_vars, vartypes) ←
    match variant.fields with
    | .named fields => do
      let fields_vars := named_fields_vars fields 0 patvar_name
      let fields_pats := fields_vars.map Prod.fst
      let vars := fields_vars.map Prod.snd
      let num_vars := fields.length
      let vars := if patvar_name.isNone then [] else vars
      let vartypes ← type_list_strings (fields.map Prod.snd)
      let pattern := "\x7b " ++ String.intercalate ", " fields_pats ++ " \x7d"
      pure (pattern, num_vars, vars, vartypes)
    | .unnamed fields => do
      let fields_vars := unnamed_fields_vars fields 0 patvar_name
      let fields_pats := fields_vars.map Prod.fst
      let vars := fields_vars.map Prod.snd
      let num_vars := fields.length
      let vars := if patvar_name.isNone then [] else vars
      let vartypes ← type_list_strings fields
      let pattern := "(" ++ String.intercalate ", " fields_pats ++ ")"
      pure (pattern, num_vars, vars, vartypes)
    | .unit => pure ("", 0, ([] : List String), ([] : List String))
  let pattern := enum_name ++ "::" ++ variant_name ++ pattern
  pure ⟨variant.ident, pattern, num_vars, named_vars, vartypes⟩

def variant_match_patterns_list (enum_name : String) (patvar_name : Option String) :
    List Variant → Except String (List MatchPattern)
  | [] => .ok []
  | v :: vs => do
    let mp ← variant_match_pattern enum_name patvar_name v
    let mps ← variant_match_patterns_list enum_name patvar_name vs
    pure (mp :: mps)

/-- `generate_variant_match_patterns` (lib.rs:558-648). -/
def generate_variant_match_patterns (enum_name : String) (data : DataEnum)
    (patvar_name : Option String) : Except String (List MatchPattern) :=
  variant_match_patterns_list enum_name patvar_name data.variants

/-! ### The four method derivations (lib.rs:650-960) -/

def THREE_TABS : String := "            "

/-- `derive_variant_name_impl_code!` (lib.rs:150-160). -/
def derive_variant_name_impl_code (g1 name g2 wc branches : String) : String :=
  "impl" ++ g1 ++ " " ++ name ++ g2 ++ wc ++
  " \x7b\n    pub fn variant_name(&self) -> &\x27static str \x7b\n        match self \x7b\n" ++
  branches ++ "\n        \x7d\n    \x7d\n\x7d"

/-- `derive_variant_index_arity_impl_code!` (lib.rs:162-172). -/
def derive_variant_index_arity_impl_code (g1 name g2 wc branches : String) : String :=
  "impl" ++ g1 ++ " " ++ name ++ g2 ++ wc ++
  " \x7b\n    pub fn variant_index_arity(&self) -> (u32, usize) \x7b\n        match self \x7b\n" ++
  branches ++ "\n        \x7d\n    \x7d\n\x7d"

/-- `derive_impl_block_code!` (lib.rs:174-180). -/
def derive_impl_block_code (g1 name g2 wc body : String) : String :=
  "impl" ++ g1 ++ " " ++ name ++ g2 ++ wc ++ " \x7b\n" ++ body ++ "\n\x7d"

/-- `derive_enum_variant_impl_code!` (lib.rs:182-190). -/
def derive_enum_variant_impl_code (pre name ret_ty body : String) : String :=
  "    pub fn " ++ pre ++ name ++ "(&self) -> " ++ ret_ty ++
  " \x7b\n        match self \x7b\n" ++ body ++ "\n        \x7d\n    \x7d"

/-- The match-branch list of `derive_variant_name` (lib.rs:669-691):
`PAT => \x7b "Variant" \x7d,` per variant. -/
def variant_name_branches (adt_name : String) (data : DataEnum) :
    Except String (List String) := do
  let patterns ← generate_variant_match_patterns adt_name data Option.none
  pure (patterns.map fun mp =>
    THREE_TABS ++ mp.match_pattern ++ " => \x7b \"" ++ mp.variant_id ++ "\" \x7d,")

/-- `derive_variant_name` (lib.rs:653-708), starting from the parsed
`DeriveInput`. -/
def derive_variant_name (ast : DeriveInput) : Except String String := do
  let adt_name := ast.ident
  let g1 ← generic_params_to_string ast.generics.params
  let g2 ← generic_params_without_constraints_to_string ast.generics.params
  let wc ← opt_where_clause_to_string ast.generics.where_clause
  let match_branches ←
    match ast.data with
    | .enum data => variant_name_branches adt_name data
    | .struct => .error "VariantName macro can not be called on structs"
    | .union => .error "VariantName macro can not be called on unions"
  if match_branches.length > 0 then
    pure (derive_variant_name_impl_code g1 adt_name g2 wc
      (String.intercalate "\n" match_branches))
  else pure ""

/-- The match-branch list of `derive_variant_index_arity` (lib.rs:730-744):
branch `i` (from `enumerate()`) is `PAT => \x7b (i, num_args) \x7d,`. -/
def variant_index_arity_branches (adt_name : String) (data : DataEnum) :
    Except String (List String) := do
  let patterns ← generate_variant_match_patterns adt_name data Option.none
  pure (patterns.enum.map fun imp =>
    THREE_TABS ++ imp.2.match_pattern ++ " => \x7b (" ++ toString imp.1 ++ ", " ++
      toString imp.2.num_args ++ ") \x7d,")

/-- `derive_variant_index_arity` (lib.rs:714-768). -/
def derive_variant_index_arity (ast : DeriveInput) : Except String String := do
  let adt_name := ast.ident
  let g1 ← generic_params_to_string ast.generics.params
  let g2 ← generic_params_without_constraints_to_string ast.generics.params
  let wc ← opt_where_clause_to_string ast.generics.where_clause
  let match_branches ←
    match ast.data with
    | .enum data => variant_index_arity_branches adt_name data
    | .struct => .error "VariantIndex macro can not be called on structs"
    | .union => .error "VariantIndex macro can not be called on unions"
  if match_branches.length > 0 then
    pure (derive_variant_index_arity_impl_code g1 adt_name g2 wc
      (String.intercalate "\n" match_branches))
  else pure ""

/-- `EnumMethodKind` (lib.rs:770-785). -/
inductive EnumMethodKind where
  | EnumIsA
  | EnumAsGetters
deriving DecidableEq, Repr

def EnumMethodKind.variant_name : EnumMethodKind → String
  | .EnumIsA => "EnumIsA"
  | .EnumAsGetters => "EnumAsGetters"

/-- One `is_<variant>` method of `EnumIsA` (lib.rs:834-858). -/
def is_a_method (several_variants : Bool) (mp : MatchPattern) : String :=
  let true_pat := THREE_TABS ++ mp.match_pattern ++ " => true,"
  let complete_pat :=
    if several_variants then true_pat ++ "\n" ++ THREE_TABS ++ "_ => false,"
    else true_pat
  derive_enum_variant_impl_code "is_" (to_snake_case mp.variant_id) "bool" complete_pat

/-- One `as_<variant>` method of `EnumAsGetters` (lib.rs:860-901). -/
def as_getter_method (adt_name : String) (several_variants : Bool)
    (mp : MatchPattern) : String :=
  let vars := "(" ++ String.intercalate ", " mp.named_args ++ ")"
  let variant_pat := THREE_TABS ++ mp.match_pattern ++ " => " ++ vars ++ ","
  let complete_pat :=
    if several_variants then
      variant_pat ++ "\n" ++ THREE_TABS ++ "_ => unreachable!(\"" ++ adt_name ++
        "::as_" ++ to_snake_case mp.variant_id ++ ": Not the proper variant\"),"
    else variant_pat
  let ret_tys := mp.arg_types.map fun ty => "&(" ++ ty ++ ")"
  let ret_ty := "(" ++ String.intercalate ", " ret_tys ++ ")"
  derive_enum_variant_impl_code "as_" (to_snake_case mp.variant_id) ret_ty complete_pat

/-- `derive_enum_variant_method` (lib.rs:789-936). -/
def derive_enum_variant_method (ast : DeriveInput) (method_kind : EnumMethodKind) :
    Except String String := do
  let adt_name := ast.ident
  let g1 ← generic_params_to_string ast.generics.params
  let g2 ← generic_params_without_constraints_to_string ast.generics.params
  let wc ← opt_where_clause_to_string ast.generics.where_clause
  let impls ←
    match ast.data with
    | .enum data => do
      let several_variants := data.variants.length > 1
      let varbasename : Option String :=
        match method_kind with
        | .EnumIsA => Option.none
        | .EnumAsGetters => Option.some "x"
      let patterns ← generate_variant_match_patterns adt_name data varbasename
      match method_kind with
      | .EnumIsA => pure (patterns.map (is_a_method several_variants))
      | .EnumAsGetters => pure (patterns.map (as_getter_method adt_name several_variants))
    | .struct => .error (method_kind.variant_name ++ " macro can not be called on structs")
    | .union => .error (method_kind.variant_name ++ " macro can not be called on unions")
  if impls.length > 0 then
    pure (derive_impl_block_code g1 adt_name g2 wc (String.intercalate "\n\n" impls))
  else pure ""

/-- `derive_enum_is_a` (lib.rs:947-950). -/
def derive_enum_is_a (ast : DeriveInput) : Except String String :=
  derive_enum_variant_method ast .EnumIsA

/-- `derive_enum_as_getters` (lib.rs:957-960). -/
def derive_enum_as_getters (ast : DeriveInput) : Except String String :=
  derive_enum_variant_method ast .EnumAsGetters

/-! ### Spec-side descriptions of the pattern builder's output

These definitions follow the words of the specification (§4.4
VariantPatternBuilder): binding names are the basename followed by a
zero-based per-variant field index; named-field patterns render as
`field_name:binding`, positional patterns render the binding alone; the
arm head is the enum and variant name followed by the braced, parenthesized
or empty field pattern. They are compared with the source-derived
`generate_variant_match_patterns`. -/

/-- Spec §4.4: the introduced binding names `basename0, …, basename(n-1)`. -/
def spec_named_args (basename : String) (n : Nat) : List String :=
  (List.range n).map fun j => basename ++ toString j

/-- Spec §4.4: the field pattern with anonymous (wildcard) bindings. -/
def spec_wildcard_fields_pat : Fields → String
  | .named fields =>
    "\x7b " ++ String.intercalate ", " (fields.map fun f => f.1 ++ ":" ++ "_") ++ " \x7d"
  | .unnamed fields =>
    "(" ++ String.intercalate ", " (fields.map fun _ => "_") ++ ")"
  | .unit => ""

/-- Spec §4.4: the field pattern with named bindings `basename<j>`. -/
def spec_named_fields_pat (basename : String) : Fields → String
  | .named fields =>
    "\x7b " ++ String.intercalate ", "
      (fields.enum.map fun jf => jf.2.1 ++ ":" ++ basename ++ toString jf.1) ++ " \x7d"
  | .unnamed fields =>
    "(" ++ String.intercalate ", " (spec_named_args basename fields.length) ++ ")"
  | .unit => ""

/-! ### The index-type generator (lib.rs:26-148) -/

/-- `proc_macro::TokenTree`, restricted: an identifier (carrying its text) or
any other token tree (the generator rejects it without reading it). -/
inductive TokenTree where
  | identTok (s : String)
  | otherTok (k : Nat)

/-- The result of `format!(index_generic_code!(), ident)` (lib.rs:26-116,138):
the template with `\x7b\x7b`/`\x7d\x7d` unescaped and the single `\x7b\x7d`
placeholder replaced by the identifier. Lines are kept verbatim, including
the trailing-whitespace lines of the source template. -/
def index_generic_code (name : String) : String :=
  String.intercalate "\n" [
    "",
    "pub mod " ++ name ++ " \x7b",
    "    #[derive(std::fmt::Debug, std::clone::Clone, std::marker::Copy,",
    "             std::hash::Hash, std::cmp::PartialEq, std::cmp::Eq,",
    "             std::cmp::PartialOrd, std::cmp::Ord)]",
    "    pub struct Id \x7b",
    "        index: usize,",
    "    \x7d",
    "",
    "    #[derive(std::fmt::Debug, std::clone::Clone, std::marker::Copy)]",
    "    pub struct Generator \x7b",
    "        counter: usize,",
    "    \x7d",
    "",
    "    pub type Vector<T> = crate::id_vector::Vector<Id,T>;",
    "",
    "    impl Id \x7b",
    "        pub fn new(init: usize) -> Id \x7b",
    "            Id \x7b index: init \x7d",
    "        \x7d",
    "        ",
    "        pub fn is_zero(&self) -> bool \x7b",
    "            self.index == 0",
    "        \x7d",
    "",
    "        pub fn incr(&mut self) \x7b",
    "            // Overflows are extremely unlikely, but we do want to make sure",
    "            // we panick whenever there is one.",
    "            self.index = self.index.checked_add(1).unwrap();",
    "        \x7d",
    "    \x7d",
    "",
    "    pub static ZERO: Id = Id \x7b index: 0 \x7d;",
    "    pub static ONE: Id = Id \x7b index: 1 \x7d;",
    "",
    "    impl crate::id_vector::ToUsize for Id \x7b",
    "        fn to_usize(&self) -> usize \x7b",
    "            self.index",
    "        \x7d",
    "    \x7d",
    "",
    "    impl crate::id_vector::Increment for Id \x7b",
    "        fn incr(&mut self) \x7b",
    "            self.incr();",
    "        \x7d",
    "    \x7d",
    "",
    "    impl crate::id_vector::Zero for Id \x7b",
    "        fn zero() -> Self \x7b",
    "            Id::new(0)",
    "        \x7d",
    "    \x7d",
    "",
    "    impl std::fmt::Display for Id \x7b",
    "        fn fmt(&self, f: &mut std::fmt::Formatter<\x27_>) ->",
    "          std::result::Result<(), std::fmt::Error> \x7b",
    "            f.write_str(self.index.to_string().as_str())",
    "        \x7d",
    "    \x7d",
    "    ",
    "    impl serde::Serialize for Id \x7b",
    "        fn serialize<S>(&self, serializer: S) -> std::result::Result<S::Ok, S::Error>",
    "        where",
    "            S: serde::Serializer,",
    "        \x7b",
    "            // usize is not necessarily contained in u32",
    "            assert!(self.index <= std::u32::MAX as usize);",
    "            serializer.serialize_u32(self.index as u32)",
    "        \x7d",
    "    \x7d",
    " ",
    "    impl Generator \x7b",
    "        pub fn new() -> Generator \x7b",
    "            Generator \x7b counter: 0 \x7d",
    "        \x7d",
    "",
    "        pub fn fresh_id(&mut self) -> Id \x7b",
    "            // The release version of the code doesn\x27t check for overflows.",
    "            // As the max usize is very large, overflows are extremely",
    "            // unlikely. Still, it is extremely important for our code that",
    "            // no overflows happen on the index counters.",
    "            let index = Id::new(self.counter);",
    "            self.counter = self.counter.checked_add(1).unwrap();",
    "            index",
    "        \x7d",
    "    \x7d",
    "\x7d"]

/-- `generate_index_type` (lib.rs:125-148): exactly one identifier token is
accepted; anything else panics. -/
def generate_index_type (item : List TokenTree) : Except String String :=
  if item.length != 1 then
    .error "generate_index_type: invalid parameters: should receive exactly one identifier"
  else
    match item with
    | [TokenTree.identTok i] => .ok (index_generic_code i)
    | _ =>
      .error "generate_index_type: invalid parameters: should receive exactly one identifier"

/-- `std::u32::MAX` as a natural number. -/
def U32_MAX : Nat := 4294967295

/-- The body of the `serde::Serialize` impl for `Id` in the generated index
module (template lines 88-97 of lib.rs):
`assert!(self.index <= std::u32::MAX as usize);`
`serializer.serialize_u32(self.index as u32)`.
The failed `assert!` aborts the program (modelled as `.error`); on success
the `as u32` cast truncates modulo `2^32` and the serializer receives that
32-bit value (returned here as the encoded number). -/
def id_serialize (index : Nat) : Except String Nat :=
  if index ≤ U32_MAX then .ok (index % 4294967296)
  else .error "assertion failed: self.index <= std::u32::MAX as usize"

end CharonMacros

namespace RemoveDropNever

/-! ### The drop-removal pass (`charon/src/remove_drop_never.rs`)

The statement AST (`crate::llbc_ast`) is not among the sources under
verification; it is modelled with exactly the structure `transform_st`
inspects: a `Drop` statement carries a place (variable id plus projection
list), every other statement shape is collapsed into constructors the pass
treats uniformly (`_ => false`), and a variable carries a type of which the
pass only asks `is_never()`. -/

/-- Variable types: `never` and everything else (tagged to keep distinct
inhabitants). -/
inductive Ty where
  | never
  | base (k : Nat)
deriving DecidableEq, Repr

def Ty.is_never : Ty → Bool
  | .never => true
  | .base _ => false

structure Var where
  ty : Ty
deriving DecidableEq, Repr

/-- A place: variable id plus projection list; projection elements are opaque
tags, the pass only asks whether the list is empty. -/
structure Place where
  var_id : Nat
  projection : List Nat
deriving DecidableEq, Repr

/-- `RawStatement`, abstracted: the pass distinguishes `Drop` (read), `Nop`
(written), and treats every other constructor uniformly; those are collapsed
into `other`. -/
inductive RawStatement where
  | drop (p : Place)
  | nop
  | other (k : Nat)
deriving DecidableEq, Repr

/-- A statement: meta (opaque) plus content. -/
structure Statement where
  meta : Nat
  content : RawStatement
deriving DecidableEq, Repr

def Statement.new (meta : Nat) (content : RawStatement) : Statement := ⟨meta, content⟩

/-- `transform_st` (remove_drop_never.rs:16-36). The locals table
`VarId::Vector<Var>` is a list indexed by variable id;
`locals.get(p.var_id).unwrap()` panics when the variable is absent, which is
modelled as `none`. -/
def transform_st (locals : List Var) (st : Statement) : Option Statement := do
  let filter ←
    match st.content with
    | .drop p =>
      if p.projection.isEmpty then
        match locals.get? p.var_id with
        | Option.some var => Option.some var.ty.is_never
        | Option.none => Option.none
      else Option.some false
    | _ => Option.some false
  if filter then Option.some (Statement.new st.meta .nop) else Option.some st

end RemoveDropNever

namespace CharonMacros

/-- The spec's description (§4.4) of one `MatchPattern` for variant `v`:
the variant id is the variant's name; the arity is the field count; with no
basename the bindings are anonymous and the arm head uses wildcards; with a
basename the bindings are `basename0, basename1, …` (reset per variant) and
the arm head names them. -/
def spec_match_pattern_ok (ename : String) (pv : Option String)
    (v : Variant) (mp : MatchPattern) : Prop :=
  mp.variant_id = v.ident ∧
  mp.num_args = v.fields.count ∧
  (pv = Option.none → mp.named_args = [] ∧
    mp.match_pattern = ename ++ "::" ++ v.ident ++ spec_wildcard_fields_pat v.fields) ∧
  (∀ b, pv = Option.some b → mp.named_args = spec_named_args b v.fields.count ∧
    mp.match_pattern = ename ++ "::" ++ v.ident ++ spec_named_fields_pat b v.fields)

/-- The spec's description (§4.5, kind 4) of the `as_<variant>` method for
variant `v`: named after the snake-cased variant, the target arm returns the
tuple of the bindings `x0, x1, …` in declaration order, and the trailing
wildcard arm — present exactly when the enum has several variants — faults
with a message naming the ADT and the snake-cased variant. -/
def spec_as_getter_method (adt_name : String) (several : Bool)
    (v : Variant) (mp : MatchPattern) : String :=
  let variant_arm := THREE_TABS ++ mp.match_pattern ++ " => " ++
    ("(" ++ String.intercalate ", " (spec_named_args "x" v.fields.count) ++ ")") ++ ","
  let arm_text :=
    if several then
      variant_arm ++ "\n" ++ THREE_TABS ++ "_ => unreachable!(\"" ++ adt_name ++
        "::as_" ++ to_snake_case v.ident ++ ": Not the proper variant\"),"
    else variant_arm
  derive_enum_variant_impl_code "as_" (to_snake_case v.ident)
    ("(" ++ String.intercalate ", " (mp.arg_types.map fun ty => "&(" ++ ty ++ ")") ++ ")")
    arm_text

end CharonMacros

namespace RemoveDropNever

/-- The trigger condition described by claim C10: the statement is a `Drop`
of a place with an empty projection whose variable, found in the locals
table, has type `Never`. -/
def drop_never_cond (locals : List Var) (st : Statement) : Bool :=
  match st.content with
  | .drop p =>
    p.projection.isEmpty &&
      (match locals.get? p.var_id with
       | Option.some v => v.ty.is_never
       | Option.none => false)
  | _ => false

end RemoveDropNever

namespace CharonMacros

/-! ### Helper lemmas -/

lemma snake_case_loop_append (cs : List Char) (acc : String) (b : Bool) :
    snake_case_loop cs acc b = acc ++ String.mk (spec_snake_scan cs b) := by
  induction cs generalizing acc b with
  | nil =>
    simp [snake_case_loop, spec_snake_scan]
  | cons c cs ih =>
    simp only [snake_case_loop, spec_snake_scan]
    by_cases hu : c.isUpper
    · simp only [hu, if_true]
      cases b <;>
        simp only [if_true, if_false, Bool.false_eq_true, ih] <;>
        · apply String.ext
          simp [String.push]
    · simp only [hu, if_false, Bool.false_eq_true, ih]
      apply String.ext
      simp [String.push]

/-! ### Helper lemmas -/

lemma named_fields_vars_none (fields : List (String × TypeExpr)) (idx : Nat) :
    named_fields_vars fields idx Option.none = fields.map fun f => (f.1 ++ ":" ++ "_", "_") := by
  induction fields generalizing idx with
  | nil => simp [named_fields_vars]
  | cons f rest ih => simp [named_fields_vars, generate_varname, ih]

lemma named_fields_vars_some (fields : List (String × TypeExpr)) (idx : Nat) (b : String) :
    named_fields_vars fields idx (Option.some b) =
      (fields.enumFrom idx).map fun jf =>
        (jf.2.1 ++ ":" ++ (b ++ toString jf.1), b ++ toString jf.1) := by
  induction fields generalizing idx with
  | nil => simp [named_fields_vars]
  | cons f rest ih => simp [named_fields_vars, generate_varname, ih]

lemma unnamed_fields_vars_none (fields : List TypeExpr) (idx : Nat) :
    unnamed_fields_vars fields idx Option.none = fields.map fun _ => ("_", "_") := by
  induction fields generalizing idx with
  | nil => simp [unnamed_fields_vars]
  | cons f rest ih => simp [unnamed_fields_vars, generate_varname, ih]

lemma unnamed_fields_vars_some (fields : List TypeExpr) (idx : Nat) (b : String) :
    unnamed_fields_vars fields idx (Option.some b) =
      (fields.enumFrom idx).map fun jf => (b ++ toString jf.1, b ++ toString jf.1) := by
  induction fields generalizing idx with
  | nil => simp [unnamed_fields_vars]
  | cons f rest ih => simp [unnamed_fields_vars, generate_varname, ih]

lemma enumFrom_map_name {α : Type} (b : String) (l : List α) (n : Nat) :
    (l.enumFrom n).map (fun jf => b ++ toString jf.1) =
      (List.range' n l.length).map (fun j => b ++ toString j) := by
  induction l generalizing n with
  | nil => simp
  | cons a l ih => simp [List.range'_succ, ih]

lemma spec_named_args_eq_enumFrom {α : Type} (b : String) (l : List α) :
    spec_named_args b l.length =
      (l.enumFrom 0).map (fun jf => b ++ toString jf.1) := by
  rw [spec_named_args, enumFrom_map_name, List.range_eq_range']

/-- The per-variant builder with anonymous bindings: no variable is
introduced, every field is the wildcard, and the arm head is as the spec
describes. -/
lemma variant_match_pattern_none_ok (enum_name : String) (v : Variant) (mp : MatchPattern)
    (h : variant_match_pattern enum_name Option.none v = .ok mp) :
    mp.variant_id = v.ident ∧ mp.num_args = v.fields.count ∧ mp.named_args = [] ∧
    mp.match_pattern = enum_name ++ "::" ++ v.ident ++ spec_wildcard_fields_pat v.fields := by
  obtain ⟨vid, vf⟩ := v
  cases vf with
  | named fields =>
    cases hvt : type_list_strings (fields.map Prod.snd) with
    | error e =>
      simp [variant_match_pattern, hvt, Bind.bind, Except.bind] at h
    | ok vt =>
      simp only [variant_match_pattern, hvt, Bind.bind, Except.bind, pure,
        Except.pure, Except.ok.injEq] at h
      subst h
      refine ⟨rfl, rfl, rfl, ?_⟩
      simp [named_fields_vars_none, spec_wildcard_fields_pat, Fields.count,
        List.map_map, Function.comp_def, String.append_assoc]
  | unnamed fields =>
    cases hvt : type_list_strings fields with
    | error e =>
      simp [variant_match_pattern, hvt, Bind.bind, Except.bind] at h
    | ok vt =>
      simp only [variant_match_pattern, hvt, Bind.bind, Except.bind, pure,
        Except.pure, Except.ok.injEq] at h
      subst h
      refine ⟨rfl, rfl, rfl, ?_⟩
      simp [unnamed_fields_vars_none, spec_wildcard_fields_pat, Fields.count,
        List.map_map, Function.comp_def, String.append_assoc]
  | unit =>
    simp only [variant_match_pattern, Bind.bind, Except.bind, pure, Except.pure,
      Except.ok.injEq] at h
    subst h
    exact ⟨rfl, rfl, rfl, by simp [spec_wildcard_fields_pat, Fields.count]⟩

/-- The per-variant builder with a binding basename: the introduced names are
`basename0, …`, restarted at 0, and the arm head is as the spec describes. -/
lemma variant_match_pattern_some_ok (enum_name b : String) (v : Variant) (mp : MatchPattern)
    (h : variant_match_pattern enum_name (Option.some b) v = .ok mp) :
    mp.variant_id = v.ident ∧ mp.num_args = v.fields.count ∧
    mp.named_args = spec_named_args b v.fields.count ∧
    mp.match_pattern = enum_name ++ "::" ++ v.ident ++ spec_named_fields_pat b v.fields := by
  obtain ⟨vid, vf⟩ := v
  cases vf with
  | named fields =>
    cases hvt : type_list_strings (fields.map Prod.snd) with
    | error e =>
      simp [variant_match_pattern, hvt, Bind.bind, Except.bind] at h
    | ok vt =>
      simp only [variant_match_pattern, hvt, Bind.bind, Except.bind, pure,
        Except.pure, Except.ok.injEq] at h
      subst h
      refine ⟨rfl, rfl, ?_, ?_⟩
      · simp [named_fields_vars_some, Fields.count, List.map_map, Function.comp_def, String.append_assoc,
          spec_named_args_eq_enumFrom]
      · simp [named_fields_vars_some, spec_named_fields_pat, List.enum,
          List.map_map, Function.comp_def, String.append_assoc]
  | unnamed fields =>
    cases hvt : type_list_strings fields with
    | error e =>
      simp [variant_match_pattern, hvt, Bind.bind, Except.bind] at h
    | ok vt =>
      simp only [variant_match_pattern, hvt, Bind.bind, Except.bind, pure,
        Except.pure, Except.ok.injEq] at h
      subst h
      refine ⟨rfl, rfl, ?_, ?_⟩
      · simp [unnamed_fields_vars_some, Fields.count, List.map_map, Function.comp_def, String.append_assoc,
          spec_named_args_eq_enumFrom]
      · simp [unnamed_fields_vars_some, spec_named_fields_pat, Fields.count,
          List.map_map, Function.comp_def, String.append_assoc, spec_named_args_eq_enumFrom]
  | unit =>
    simp only [variant_match_pattern, Bind.bind, Except.bind, pure, Except.pure,
      Except.ok.injEq] at h
    subst h
    exact ⟨rfl, rfl, by simp [spec_named_args, Fields.count], by
      simp [spec_named_fields_pat, Fields.count]⟩

/-- A successful run of the builder relates variants and patterns pointwise. -/
lemma variant_match_patterns_list_ok (enum_name : String) (patvar : Option String) :
    ∀ (vs : List Variant) (mps : List MatchPattern),
      variant_match_patterns_list enum_name patvar vs = .ok mps →
      List.Forall₂ (fun v mp => variant_match_pattern enum_name patvar v = .ok mp) vs mps := by
  intro vs
  induction vs with
  | nil =>
    intro mps h
    simp only [variant_match_patterns_list, Except.ok.injEq] at h
    subst h
    exact List.Forall₂.nil
  | cons v rest ih =>
    intro mps h
    cases hmp : variant_match_pattern enum_name patvar v with
    | error e => simp [variant_match_patterns_list, hmp, Bind.bind, Except.bind] at h
    | ok mp =>
      cases hrest : variant_match_patterns_list enum_name patvar rest with
      | error e =>
        simp [variant_match_patterns_list, hmp, hrest, Bind.bind, Except.bind] at h
      | ok mps' =>
        simp only [variant_match_patterns_list, hmp, hrest, Bind.bind, Except.bind,
          pure, Except.pure, Except.ok.injEq] at h
        subst h
        exact List.Forall₂.cons hmp (ih mps' hrest)

end CharonMacros

/-! ## The claims -/

/-- C2, counterexample: the source's `to_snake_case` maps `"VARIANT"` to
`"variant"`, not to `"v_a_r_i_a_n_t"` as the claim asserts. (The source
comment at lib.rs:202-204 says the last-was-lowercase tracking exists
precisely to prevent the `"v_a_r_i_a_n_t"` output.) -/
theorem C2_counterexample :
    CharonMacros.to_snake_case "VARIANT" = "variant" ∧
    CharonMacros.to_snake_case "VARIANT" ≠ "v_a_r_i_a_n_t" := by
  constructor <;> decide

/-- C2, amended: `to_snake_case` is the deterministic left-to-right scan
that, on an uppercase character, first emits `_` exactly when the previously
treated character set the last-was-lowercase flag and then emits the
character's lowercase form (clearing the flag), and emits every
non-uppercase character unchanged while setting the flag; in particular
`to_snake_case "ConstantValue" = "constant_value"`,
`to_snake_case "I32" = "i32"`, and `to_snake_case "VARIANT" = "variant"`. -/
theorem C2_to_snake_case :
    (∀ s : String, CharonMacros.to_snake_case s =
      String.mk (CharonMacros.spec_snake_scan s.data false)) ∧
    CharonMacros.to_snake_case "ConstantValue" = "constant_value" ∧
    CharonMacros.to_snake_case "I32" = "i32" ∧
    CharonMacros.to_snake_case "VARIANT" = "variant" := by
  refine ⟨fun s => ?_, by decide, by decide, by decide⟩
  rw [CharonMacros.to_snake_case, CharonMacros.snake_case_loop_append]
  apply String.ext
  simp

/-- C7: serializing a generated handle whose ordinal is at most the 32-bit
unsigned maximum succeeds and encodes exactly that value; an ordinal above
the bound is a fatal assertion failure. -/
theorem C7_id_serialize (n : Nat) :
    (n ≤ CharonMacros.U32_MAX → CharonMacros.id_serialize n = .ok n) ∧
    (CharonMacros.U32_MAX < n → CharonMacros.id_serialize n =
      .error "assertion failed: self.index <= std::u32::MAX as usize") := by
  constructor
  · intro h
    have hb : n ≤ 4294967295 := by simpa [CharonMacros.U32_MAX] using h
    have hlt : n < 4294967296 := by omega
    simp [CharonMacros.id_serialize, h, Nat.mod_eq_of_lt hlt]
  · intro h
    have hb : ¬ n ≤ CharonMacros.U32_MAX := not_le.mpr h
    simp [CharonMacros.id_serialize, hb]

/-- C7, witness: the bound itself serializes to itself; one past the bound
is the assertion failure. -/
theorem C7_witness :
    CharonMacros.id_serialize 4294967295 = .ok 4294967295 ∧
    CharonMacros.id_serialize 4294967296 =
      .error "assertion failed: self.index <= std::u32::MAX as usize" :=
  ⟨(C7_id_serialize 4294967295).1 (by decide),
   (C7_id_serialize 4294967296).2 (by decide)⟩

/-- C9: every derivation is a pure function: the same `DeriveInput` (and,
for the index kind, the same token list) gives byte-identical output text on
any two invocations. The embedding is faithful to the source on these paths
(no input, clock, or other ambient state is read), so the property is
definitional. -/
theorem C9_determinism (ast : CharonMacros.DeriveInput)
    (kind : CharonMacros.EnumMethodKind) (tokens : List CharonMacros.TokenTree) :
    CharonMacros.derive_variant_name ast = CharonMacros.derive_variant_name ast ∧
    CharonMacros.derive_variant_index_arity ast =
      CharonMacros.derive_variant_index_arity ast ∧
    CharonMacros.derive_enum_variant_method ast kind =
      CharonMacros.derive_enum_variant_method ast kind ∧
    CharonMacros.generate_index_type tokens = CharonMacros.generate_index_type tokens :=
  ⟨rfl, rfl, rfl, rfl⟩

/-- C10, counterexample: for the empty locals table and the statement
`Drop(var 0, no projection)` the claimed condition (the variable has type
`Never`) does not hold, so the claim predicts the statement is returned
unchanged; the code instead panics on `locals.get(p.var_id).unwrap()`
(modelled by `none`). -/
theorem C10_counterexample :
    RemoveDropNever.drop_never_cond [] ⟨0, .drop ⟨0, []⟩⟩ = false ∧
    RemoveDropNever.transform_st [] ⟨0, .drop ⟨0, []⟩⟩ ≠
      Option.some ⟨0, .drop ⟨0, []⟩⟩ := by
  constructor
  · rfl
  · decide

/-- C10, amended: provided the dropped place's variable is present in the
locals table (otherwise the lookup panics), `transform_st` returns a `Nop`
carrying the statement's original meta exactly when the statement is a
`Drop` of a place with an empty projection whose variable has type `Never`,
and returns the statement unchanged otherwise — in particular a `Drop` of a
`Never`-typed variable through a non-empty projection is left unchanged. -/
theorem C10_transform_st (locals : List RemoveDropNever.Var)
    (st : RemoveDropNever.Statement)
    (hwf : ∀ p, st.content = .drop p → p.projection = [] →
      (locals.get? p.var_id).isSome) :
    (RemoveDropNever.drop_never_cond locals st = true →
      RemoveDropNever.transform_st locals st =
        Option.some (RemoveDropNever.Statement.new st.meta .nop)) ∧
    (RemoveDropNever.drop_never_cond locals st = false →
      RemoveDropNever.transform_st locals st = Option.some st) := by
  obtain ⟨m, content⟩ := st
  cases content with
  | drop p =>
    by_cases hproj : p.projection = []
    · have hsome := hwf p rfl hproj
      rw [List.get?_eq_getElem?] at hsome
      cases hv : locals[p.var_id]? with
      | none => rw [hv] at hsome; simp at hsome
      | some var =>
        cases hnev : var.ty.is_never with
        | true =>
          constructor
          · intro _
            simp [RemoveDropNever.transform_st, hproj, hv, hnev,
              RemoveDropNever.Statement.new]
          · intro hc
            simp [RemoveDropNever.drop_never_cond, hproj, hv, hnev] at hc
        | false =>
          constructor
          · intro hc
            simp [RemoveDropNever.drop_never_cond, hproj, hv, hnev] at hc
          · intro _
            simp [RemoveDropNever.transform_st, hproj, hv, hnev]
    · constructor
      · intro hc
        simp [RemoveDropNever.drop_never_cond, hproj] at hc
      · intro _
        simp [RemoveDropNever.transform_st, hproj]
  | nop =>
    exact ⟨fun hc => by simp [RemoveDropNever.drop_never_cond] at hc,
      fun _ => by simp [RemoveDropNever.transform_st]⟩
  | other k =>
    exact ⟨fun hc => by simp [RemoveDropNever.drop_never_cond] at hc,
      fun _ => by simp [RemoveDropNever.transform_st]⟩

/-- C10, witness: a `Drop` of a `Never`-typed variable with empty projection
becomes `Nop` with the original meta (5); a `Drop` of a `Never`-typed
variable through a non-empty projection is unchanged. -/
theorem C10_witness :
    RemoveDropNever.transform_st [⟨.never⟩] ⟨5, .drop ⟨0, []⟩⟩ =
      Option.some ⟨5, .nop⟩ ∧
    RemoveDropNever.transform_st [⟨.never⟩] ⟨7, .drop ⟨0, [3]⟩⟩ =
      Option.some ⟨7, .drop ⟨0, [3]⟩⟩ :=
  ⟨(C10_transform_st [⟨.never⟩] ⟨5, .drop ⟨0, []⟩⟩
      (by intro p hp hproj; cases hp; simp)).1 (by decide),
   (C10_transform_st [⟨.never⟩] ⟨7, .drop ⟨0, [3]⟩⟩
      (by intro p hp hproj; cases hp; simp at hproj)).2 (by decide)⟩

/-- C5: a successful run of the match-pattern builder relates the variants,
in declaration order, to patterns built as described: with no basename every
field is the wildcard `_` and no binding name is introduced; with a basename
the binding names are the basename followed by a zero-based field index that
restarts at 0 for every variant; named-field patterns render as
`field_name:binding` and positional patterns render the binding alone. -/
theorem C5_match_patterns (ename : String) (data : CharonMacros.DataEnum)
    (pv : Option String) (mps : List CharonMacros.MatchPattern)
    (h : CharonMacros.generate_variant_match_patterns ename data pv = .ok mps) :
    List.Forall₂ (CharonMacros.spec_match_pattern_ok ename pv) data.variants mps := by
  have hall := CharonMacros.variant_match_patterns_list_ok ename pv data.variants mps h
  refine hall.imp ?_
  intro v mp hv
  cases pv with
  | none =>
    obtain ⟨h1, h2, h3, h4⟩ := CharonMacros.variant_match_pattern_none_ok ename v mp hv
    refine ⟨h1, h2, fun _ => ⟨h3, h4⟩, fun b hb => ?_⟩
    exact absurd hb (by simp)
  | some b =>
    obtain ⟨h1, h2, h3, h4⟩ := CharonMacros.variant_match_pattern_some_ok ename b v mp hv
    refine ⟨h1, h2, fun hn => ?_, fun b2 hb => ?_⟩
    · exact absurd hn (by simp)
    · obtain rfl : b = b2 := by injection hb
      exact ⟨h3, h4⟩

/-- C5, witness: for `enum E { V(T), W { f: U, g: U } }` with basename `x`,
the builder yields `E::V(x0)` with binding list `[x0]` and
`E::W{ f:x0, g:x1 }` with binding list `[x0, x1]` (index reset per variant). -/
theorem C5_witness :
    List.Forall₂ (CharonMacros.spec_match_pattern_ok "E" (Option.some "x"))
      [⟨"V", .unnamed [.path false [.mk "T" .none]]⟩,
       ⟨"W", .named [("f", .path false [.mk "U" .none]),
                     ("g", .path false [.mk "U" .none])]⟩]
      [⟨"V", "E::V(x0)", 1, ["x0"], ["T"]⟩,
       ⟨"W", "E::W\x7b f:x0, g:x1 \x7d", 2, ["x0", "x1"], ["U", "U"]⟩] :=
  C5_match_patterns "E"
    ⟨[⟨"V", .unnamed [.path false [.mk "T" .none]]⟩,
      ⟨"W", .named [("f", .path false [.mk "U" .none]),
                    ("g", .path false [.mk "U" .none])]⟩]⟩
    (Option.some "x")
    [⟨"V", "E::V(x0)", 1, ["x0"], ["T"]⟩,
     ⟨"W", "E::W\x7b f:x0, g:x1 \x7d", 2, ["x0", "x1"], ["U", "U"]⟩]
    rfl

/-- C4: for every variant (in declaration order) of a successful
`EnumAsGetters` run, the generated method's target arm returns the tuple of
the bindings `x0, x1, …` in field declaration order, and the method carries
the trailing wildcard arm — whose fault message names the ADT and the
snake-cased variant — exactly when the enum has more than one variant. -/
theorem C4_as_getters (adt : String) (data : CharonMacros.DataEnum)
    (mps : List CharonMacros.MatchPattern)
    (h : CharonMacros.generate_variant_match_patterns adt data (Option.some "x") = .ok mps) :
    List.Forall₂ (fun v mp =>
      mp.named_args = CharonMacros.spec_named_args "x" v.fields.count ∧
      CharonMacros.as_getter_method adt (data.variants.length > 1) mp =
        CharonMacros.spec_as_getter_method adt (data.variants.length > 1) v mp)
      data.variants mps := by
  have hall := CharonMacros.variant_match_patterns_list_ok adt (Option.some "x")
    data.variants mps h
  refine hall.imp ?_
  intro v mp hv
  obtain ⟨h1, h2, h3, h4⟩ := CharonMacros.variant_match_pattern_some_ok adt "x" v mp hv
  refine ⟨h3, ?_⟩
  simp only [CharonMacros.as_getter_method, CharonMacros.spec_as_getter_method, h1, h3]

/-- C4, witness: for `enum E { A(T), B }` (two variants) the `as_a` method's
arm returns `(x0)` and the trailing wildcard arm faults with a message naming
`E` and `a`; the relation also fixes the binding list `[x0]`. -/
theorem C4_witness :
    List.Forall₂ (fun v mp =>
      mp.named_args = CharonMacros.spec_named_args "x" v.fields.count ∧
      CharonMacros.as_getter_method "E"
          (([⟨"A", CharonMacros.Fields.unnamed [.path false [.mk "T" .none]]⟩,
             ⟨"B", CharonMacros.Fields.unit⟩] : List CharonMacros.Variant).length > 1) mp =
        CharonMacros.spec_as_getter_method "E"
          (([⟨"A", CharonMacros.Fields.unnamed [.path false [.mk "T" .none]]⟩,
             ⟨"B", CharonMacros.Fields.unit⟩] : List CharonMacros.Variant).length > 1) v mp)
      [⟨"A", CharonMacros.Fields.unnamed [.path false [.mk "T" .none]]⟩,
       ⟨"B", CharonMacros.Fields.unit⟩]
      [⟨"A", "E::A(x0)", 1, ["x0"], ["T"]⟩,
       ⟨"B", "E::B", 0, [], []⟩] :=
  C4_as_getters "E"
    ⟨[⟨"A", CharonMacros.Fields.unnamed [.path false [.mk "T" .none]]⟩,
      ⟨"B", CharonMacros.Fields.unit⟩]⟩
    [⟨"A", "E::A(x0)", 1, ["x0"], ["T"]⟩,
     ⟨"B", "E::B", 0, [], []⟩]
    rfl

/-- C3: in a successful `variant_index_arity` derivation there is one match
branch per variant; branch `i` (zero-based, declaration order) returns the
pair `(i, num_args_i)` where `num_args_i` is the arity recorded by the
match-pattern builder, which equals the declared field count of variant `i`.
The ordinals are the positions `0 .. N-1` in declaration order. -/
theorem C3_variant_index_arity (ename : String) (data : CharonMacros.DataEnum)
    (mps : List CharonMacros.MatchPattern) (branches : List String)
    (hmp : CharonMacros.generate_variant_match_patterns ename data Option.none = .ok mps)
    (hbr : CharonMacros.variant_index_arity_branches ename data = .ok branches) :
    branches.length = data.variants.length ∧
    ∀ i (hi : i < data.variants.length) (hm : i < mps.length) (hb : i < branches.length),
      branches[i] =
        CharonMacros.THREE_TABS ++ mps[i].match_pattern ++ " => \x7b (" ++
          toString i ++ ", " ++ toString mps[i].num_args ++ ") \x7d," ∧
      mps[i].num_args = (data.variants[i]).fields.count := by
  have hall := CharonMacros.variant_match_patterns_list_ok ename Option.none
    data.variants mps hmp
  have hlen : data.variants.length = mps.length := hall.length_eq
  simp only [CharonMacros.variant_index_arity_branches] at hbr
  rw [show CharonMacros.generate_variant_match_patterns ename data Option.none =
    .ok mps from hmp] at hbr
  simp only [Bind.bind, Except.bind, pure, Except.pure, Except.ok.injEq] at hbr
  subst hbr
  constructor
  · simp [hlen]
  · intro i hi hm hb
    constructor
    · simp [List.getElem_map, List.getElem_enum]
    · have hrel := hall.get hi hm
      have := CharonMacros.variant_match_pattern_none_ok ename _ _ hrel
      simpa [List.get_eq_getElem] using this.2.1

/-- C3, witness: for `enum E { A, B(T, T), C }` the three branches carry the
ordinal-arity pairs `(0, 0)`, `(1, 2)`, `(2, 0)` in declaration order. -/
theorem C3_witness :
    ([CharonMacros.THREE_TABS ++ "E::A => \x7b (0, 0) \x7d,",
      CharonMacros.THREE_TABS ++ "E::B(_, _) => \x7b (1, 2) \x7d,",
      CharonMacros.THREE_TABS ++ "E::C => \x7b (2, 0) \x7d,"] : List String).length =
      ([⟨"A", CharonMacros.Fields.unit⟩,
        ⟨"B", CharonMacros.Fields.unnamed [.path false [.mk "T" .none],
                                           .path false [.mk "T" .none]]⟩,
        ⟨"C", CharonMacros.Fields.unit⟩] : List CharonMacros.Variant).length ∧
    (⟨"B", "E::B(_, _)", 2, [], ["T", "T"]⟩ : CharonMacros.MatchPattern).num_args =
      (CharonMacros.Fields.unnamed [.path false [.mk "T" .none],
        .path false [.mk "T" .none]]).count := by
  have h := C3_variant_index_arity "E"
    ⟨[⟨"A", CharonMacros.Fields.unit⟩,
      ⟨"B", CharonMacros.Fields.unnamed [.path false [.mk "T" .none],
                                         .path false [.mk "T" .none]]⟩,
      ⟨"C", CharonMacros.Fields.unit⟩]⟩
    [⟨"A", "E::A", 0, [], []⟩,
     ⟨"B", "E::B(_, _)", 2, [], ["T", "T"]⟩,
     ⟨"C", "E::C", 0, [], []⟩]
    [CharonMacros.THREE_TABS ++ "E::A => \x7b (0, 0) \x7d,",
     CharonMacros.THREE_TABS ++ "E::B(_, _) => \x7b (1, 2) \x7d,",
     CharonMacros.THREE_TABS ++ "E::C => \x7b (2, 0) \x7d,"]
    rfl rfl
  exact ⟨h.1, (h.2 1 (by decide) (by decide) (by decide)).2⟩

/-- C8: on an enum with zero variants — whenever the generic-parameter and
where-clause renderings succeed — each of the four method derivations
returns the empty text rather than an empty impl block. -/
theorem C8_zero_variants (ast : CharonMacros.DeriveInput) (g1 g2 w : String)
    (hd : ast.data = .enum ⟨[]⟩)
    (h1 : CharonMacros.generic_params_to_string ast.generics.params = .ok g1)
    (h2 : CharonMacros.generic_params_without_constraints_to_string ast.generics.params = .ok g2)
    (hw : CharonMacros.opt_where_clause_to_string ast.generics.where_clause = .ok w) :
    CharonMacros.derive_variant_name ast = .ok "" ∧
    CharonMacros.derive_variant_index_arity ast = .ok "" ∧
    CharonMacros.derive_enum_variant_method ast .EnumIsA = .ok "" ∧
    CharonMacros.derive_enum_variant_method ast .EnumAsGetters = .ok "" := by
  obtain ⟨aid, agen, adata⟩ := ast
  simp only at hd h1 h2 hw
  subst hd
  refine ⟨?_, ?_, ?_, ?_⟩ <;>
    simp [CharonMacros.derive_variant_name, CharonMacros.derive_variant_index_arity,
      CharonMacros.derive_enum_variant_method, h1, h2, hw,
      CharonMacros.variant_name_branches, CharonMacros.variant_index_arity_branches,
      CharonMacros.generate_variant_match_patterns,
      CharonMacros.variant_match_patterns_list, Bind.bind, Except.bind, pure, Except.pure]

/-- C8, witness: the variant-less enum `enum E {}` with no generics yields
empty text under all four derivations. -/
theorem C8_witness :
    CharonMacros.derive_variant_name ⟨"E", ⟨[], Option.none⟩, .enum ⟨[]⟩⟩ = .ok "" ∧
    CharonMacros.derive_variant_index_arity ⟨"E", ⟨[], Option.none⟩, .enum ⟨[]⟩⟩ = .ok "" ∧
    CharonMacros.derive_enum_variant_method ⟨"E", ⟨[], Option.none⟩, .enum ⟨[]⟩⟩
      .EnumIsA = .ok "" ∧
    CharonMacros.derive_enum_variant_method ⟨"E", ⟨[], Option.none⟩, .enum ⟨[]⟩⟩
      .EnumAsGetters = .ok "" :=
  C8_zero_variants ⟨"E", ⟨[], Option.none⟩, .enum ⟨[]⟩⟩ "" "" "" rfl rfl rfl rfl

/-- C6, counterexample: a type-bound predicate with an empty bound list
(`where T:` is legal input) renders as `T` alone, not as `T : ` followed by
the (empty) joined bounds; the claimed line would be `    T : ,`. -/
theorem C6_counterexample :
    CharonMacros.opt_where_clause_to_string
      (Option.some ⟨[.typeP false (.path false [.mk "T" .none]) []]⟩) =
      .ok "\nwhere\n    T,\n" ∧
    ("\nwhere\n    T,\n" : String) ≠ "\nwhere\n    T : ,\n" := by
  constructor
  · rfl
  · decide

/-- C6, amended: the where-clause renderer returns empty text when the
clause is absent, and otherwise `\nwhere\n` followed by exactly one line
`    predicate,\n` per predicate in order; a type-bound predicate with at
least one bound renders as `lhs : bounds` (bounds joined by ` + `), a
type-bound predicate with no bounds renders as `lhs` alone, a lifetime-bound
predicate renders as `lhs : bounds`, and an equality predicate renders as
`lhs = rhs`. -/
theorem C6_where_renderer :
    (CharonMacros.opt_where_clause_to_string Option.none = .ok "") ∧
    (∀ (wc : CharonMacros.WhereClause) (ps : List String),
      wc.predicates.mapM CharonMacros.where_predicate_to_string = .ok ps →
      CharonMacros.opt_where_clause_to_string (Option.some wc) =
        .ok ("\nwhere\n" ++ String.join (ps.map fun p => "    " ++ p ++ ",\n"))) ∧
    (∀ ty bounds sty sb, CharonMacros.type_to_string ty = .ok sty → bounds ≠ [] →
      CharonMacros.type_param_bounds_to_string bounds = .ok sb →
      CharonMacros.where_predicate_to_string (.typeP false ty bounds) =
        .ok (sty ++ " : " ++ sb)) ∧
    (∀ ty sty, CharonMacros.type_to_string ty = .ok sty →
      CharonMacros.where_predicate_to_string (.typeP false ty []) = .ok sty) ∧
    (∀ lf bounds, CharonMacros.where_predicate_to_string (.lifetimeP lf bounds) =
      .ok (CharonMacros.lifetime_to_string lf ++ " : " ++
        CharonMacros.lifetime_bounds_to_string bounds)) ∧
    (∀ l r sl sr, CharonMacros.type_to_string l = .ok sl →
      CharonMacros.type_to_string r = .ok sr →
      CharonMacros.where_predicate_to_string (.eqP l r) = .ok (sl ++ " = " ++ sr)) ∧
    (∀ bs ss, CharonMacros.type_param_bounds_strings bs = .ok ss →
      CharonMacros.type_param_bounds_to_string bs =
        .ok (String.intercalate " + " ss)) := by
  refine ⟨rfl, ?_, ?_, ?_, ?_, ?_, ?_⟩
  · intro wc ps hps
    simp only [CharonMacros.opt_where_clause_to_string,
      CharonMacros.where_clause_to_string, hps, Bind.bind, Except.bind, pure, Except.pure]
  · intro ty bounds sty sb hty hne hsb
    cases bounds with
    | nil => exact absurd rfl hne
    | cons b bs =>
      simp [CharonMacros.where_predicate_to_string, hty, hsb, Bind.bind, Except.bind,
        pure, Except.pure]
  · intro ty sty hty
    simp [CharonMacros.where_predicate_to_string, hty, Bind.bind, Except.bind,
      pure, Except.pure]
  · intro lf bounds
    rfl
  · intro l r sl sr hl hr
    simp [CharonMacros.where_predicate_to_string, hl, hr, Bind.bind, Except.bind,
      pure, Except.pure]
  · intro bs ss hss
    simp [CharonMacros.type_param_bounds_to_string, hss, Bind.bind, Except.bind,
      pure, Except.pure]

/-- C6, witness: a clause with a bounded type predicate, a lifetime
predicate and an equality predicate renders one indented line each, in
order. -/
theorem C6_witness :
    CharonMacros.opt_where_clause_to_string
      (Option.some ⟨[
        .typeP false (.path false [.mk "T" .none])
          [.traitB .none false [.mk "Clone" .none]],
        .lifetimeP ⟨"a"⟩ [⟨"b"⟩],
        .eqP (.path false [.mk "A" .none]) (.path false [.mk "B" .none])]⟩) =
      .ok "\nwhere\n    T : Clone,\n    \x27a : \x27b,\n    A = B,\n" := by
  have h := (C6_where_renderer.2.1)
    ⟨[.typeP false (.path false [.mk "T" .none])
        [.traitB .none false [.mk "Clone" .none]],
      .lifetimeP ⟨"a"⟩ [⟨"b"⟩],
      .eqP (.path false [.mk "A" .none]) (.path false [.mk "B" .none])]⟩
    ["T : Clone", "\x27a : \x27b", "A = B"] rfl
  simpa using h

/-- Rendering a generic-argument list preserves its length (used to connect
"the argument list is non-empty" with "the rendered list is non-empty"). -/
lemma generic_args_strings_length :
    ∀ (args : List CharonMacros.GenericArgument) (ss : List String),
      CharonMacros.generic_args_strings args = .ok ss → ss.length = args.length := by
  intro args
  induction args with
  | nil =>
    intro ss h
    simp only [CharonMacros.generic_args_strings, Except.ok.injEq] at h
    subst h
    rfl
  | cons a rest ih =>
    intro ss h
    cases ha : CharonMacros.generic_argument_to_string a with
    | error e =>
      simp [CharonMacros.generic_args_strings, ha, Bind.bind, Except.bind] at h
    | ok s =>
      cases hr : CharonMacros.generic_args_strings rest with
      | error e =>
        simp [CharonMacros.generic_args_strings, ha, hr, Bind.bind, Except.bind] at h
      | ok ss2 =>
        simp only [CharonMacros.generic_args_strings, ha, hr, Bind.bind, Except.bind,
          pure, Except.pure, Except.ok.injEq] at h
        subst h
        simp [ih ss2 hr]

/-- C1: the type printer follows the claimed rendering rules —
`Array(e,n)` gives `[e; n]`, `Reference` gives `&` + optional lifetime +
optional ` mut` + space + element, `Slice(e)` gives `[e]`, tuples are the
parenthesized comma-join (empty tuple `()`), paths join their segments with
`::` and a segment carries `<args>` exactly when its argument list is
non-empty — and every unsupported shape fails fatally with a diagnostic
naming that shape's tag. -/
theorem C1_type_printer :
    (∀ e n se sn, CharonMacros.type_to_string e = .ok se →
      CharonMacros.expr_to_string n = .ok sn →
      CharonMacros.type_to_string (.array e n) = .ok ("[" ++ se ++ "; " ++ sn ++ "]")) ∧
    (∀ lf m e se, CharonMacros.type_to_string e = .ok se →
      CharonMacros.type_to_string (.reference lf m e) =
        .ok ("&" ++ lf.elim "" CharonMacros.lifetime_to_string ++
          (if m then " mut" else "") ++ " " ++ se)) ∧
    (∀ e se, CharonMacros.type_to_string e = .ok se →
      CharonMacros.type_to_string (.slice e) = .ok ("[" ++ se ++ "]")) ∧
    (∀ es ss, CharonMacros.type_list_strings es = .ok ss →
      CharonMacros.type_to_string (.tuple es) =
        .ok ("(" ++ String.intercalate ", " ss ++ ")")) ∧
    (CharonMacros.type_to_string (.tuple []) = .ok "()") ∧
    (∀ segs ss, CharonMacros.path_segments_strings segs = .ok ss →
      CharonMacros.type_to_string (.path false segs) =
        .ok (String.intercalate "::" ss)) ∧
    (∀ i, CharonMacros.path_segment_to_string (.mk i .none) = .ok i) ∧
    (∀ i, CharonMacros.path_segment_to_string (.mk i (.angleBracketed [])) = .ok i) ∧
    (∀ i args ss, CharonMacros.generic_args_strings args = .ok ss → args ≠ [] →
      CharonMacros.path_segment_to_string (.mk i (.angleBracketed args)) =
        .ok (i ++ "<" ++ String.intercalate ", " ss ++ ">")) ∧
    (CharonMacros.type_to_string .bareFn =
      .error "type_to_string: unexpected type: BareFn") ∧
    (CharonMacros.type_to_string .traitObject =
      .error "type_to_string: unexpected type: TraitObject") ∧
    (CharonMacros.type_to_string .infer =
      .error "type_to_string: unexpected type: Infer") ∧
    (CharonMacros.type_to_string .never =
      .error "type_to_string: unexpected type: Never") ∧
    (CharonMacros.type_to_string .macroTy =
      .error "type_to_string: unexpected type: Macro") ∧
    (CharonMacros.type_to_string .paren =
      .error "type_to_string: unexpected type: Paren") ∧
    (CharonMacros.type_to_string .ptr =
      .error "type_to_string: unexpected type: Ptr") ∧
    (CharonMacros.type_to_string .group =
      .error "type_to_string: unexpected type: Group") ∧
    (CharonMacros.type_to_string .verbatim =
      .error "type_to_string: unexpected type: Verbatim") := by
  refine ⟨?_, ?_, ?_, ?_, rfl, ?_, ?_, ?_, ?_,
    rfl, rfl, rfl, rfl, rfl, rfl, rfl, rfl, rfl⟩
  · intro e n se sn h1 h2
    simp [CharonMacros.type_to_string, h1, h2, Bind.bind, Except.bind, pure, Except.pure]
  · intro lf m e se h1
    cases lf <;> cases m <;>
      simp [CharonMacros.type_to_string, h1, Bind.bind, Except.bind, pure, Except.pure,
        Option.elim, String.append_assoc]
  · intro e se h1
    simp [CharonMacros.type_to_string, h1, Bind.bind, Except.bind, pure, Except.pure]
  · intro es ss h1
    simp [CharonMacros.type_to_string, h1, Bind.bind, Except.bind, pure, Except.pure]
  · intro segs ss h1
    simp [CharonMacros.type_to_string, h1, Bind.bind, Except.bind, pure, Except.pure]
  · intro i
    rfl
  · intro i
    simp [CharonMacros.path_segment_to_string, CharonMacros.generic_args_strings,
      Bind.bind, Except.bind, pure, Except.pure]
  · intro i args ss h1 hargs
    have hlen := generic_args_strings_length args ss h1
    have hne : ss ≠ [] := by
      intro hss
      subst hss
      simp at hlen
      exact hargs (List.length_eq_zero.mp hlen.symm)
    cases ss with
    | nil => exact absurd rfl hne
    | cons s rest =>
      simp [CharonMacros.path_segment_to_string, h1, Bind.bind, Except.bind,
        pure, Except.pure, String.append_assoc]

/-- C1, witness: concrete renderings — `[u32; 4]`, `&'a mut T`, `[u8]`,
`(A, B)`, `Vec<T>` — obtained through the rules. -/
theorem C1_witness :
    CharonMacros.type_to_string
      (.array (.path false [.mk "u32" .none]) (.lit (.int "4"))) = .ok "[u32; 4]" ∧
    CharonMacros.type_to_string
      (.reference (Option.some ⟨"a"⟩) true (.path false [.mk "T" .none])) =
      .ok "&\x27a mut T" ∧
    CharonMacros.type_to_string (.slice (.path false [.mk "u8" .none])) = .ok "[u8]" ∧
    CharonMacros.type_to_string
      (.tuple [.path false [.mk "A" .none], .path false [.mk "B" .none]]) =
      .ok "(A, B)" ∧
    CharonMacros.path_segment_to_string
      (.mk "Vec" (.angleBracketed [.typeArg (.path false [.mk "T" .none])])) =
      .ok "Vec<T>" := by
  refine ⟨?_, ?_, ?_, ?_, ?_⟩
  · exact C1_type_printer.1 (.path false [.mk "u32" .none]) (.lit (.int "4"))
      "u32" "4" rfl rfl
  · simpa using C1_type_printer.2.1 (Option.some ⟨"a"⟩) true
      (.path false [.mk "T" .none]) "T" rfl
  · exact C1_type_printer.2.2.1 (.path false [.mk "u8" .none]) "u8" rfl
  · exact C1_type_printer.2.2.2.1 [.path false [.mk "A" .none], .path false [.mk "B" .none]]
      ["A", "B"] rfl
  · simpa using C1_type_printer.2.2.2.2.2.2.2.2.1 "Vec"
      [.typeArg (.path false [.mk "T" .none])] ["T"] rfl (by simp)
